import Mathlib

/-!
Verification of the timeline-manipulation and playback core of a
browser-based non-linear video editor.

The embedding below translates the data model (`types.ts`), the clip-store
operations (`handleAddToTimeline`, `handleUpdateClip`, `handleSplit`), the
snap/trim drag transforms (`getSnapTime`, the left/right handle branches of
`handleGlobalMouseMove`), the playback clock (main loop tick and
`totalDuration`) and the media-sink drift correction (`syncMediaElement`)
into pure Lean functions over `ℚ` (the source manipulates JS numbers with
exact small arithmetic in all the properties considered here).

The repository contains two evolutionary versions of the app; definitions
suffixed `V1` come from the earlier version (`Timeline.tsx`), unsuffixed
ones from the newer multi-track version (the timeline component embedded in
`AssetLibrary.tsx` and the app embedded in `storageService.ts`).
-/

/-- `MediaType` from `types.ts`. -/
inductive MediaType where
  | video
  | image
  | audio
  | text
deriving DecidableEq, Repr

/-- `MediaAsset` from `types.ts` (fields relevant to timeline logic;
`src`/`name`/`thumbnail`/`textContent` are opaque to the engine). -/
structure MediaAsset where
  id : Nat
  type : MediaType
  duration : ℚ
deriving DecidableEq, Repr

/-- `TimelineClip` from `types.ts`. -/
structure TimelineClip where
  id : Nat
  assetId : Nat
  startOffset : ℚ
  mediaStart : ℚ
  duration : ℚ
  trackIndex : Nat
deriving DecidableEq, Repr

/-- `MIN_CLIP_DURATION` (0.5 s) from the timeline components. -/
def MIN_CLIP_DURATION : ℚ := 1/2

/-- `PIXELS_PER_SECOND` from the timeline components. -/
def PIXELS_PER_SECOND : ℚ := 40

/-- `SNAP_THRESHOLD_PX` from the newer timeline component. -/
def SNAP_THRESHOLD_PX : ℚ := 15

/-! ## Clip store operations -/

/-- A `Partial<TimelineClip>` as passed to `handleUpdateClip`: each
geometry field optionally present (the code only ever passes
`startOffset`, `mediaStart`, `duration`, but the store accepts any
partial record). -/
structure ClipUpdates where
  startOffset : Option ℚ := none
  mediaStart : Option ℚ := none
  duration : Option ℚ := none
  trackIndex : Option Nat := none
deriving DecidableEq, Repr

/-- The JS spread `{ ...c, ...updates }`: provided fields replace the
clip's, absent fields keep it. -/
def applyUpdates (c : TimelineClip) (u : ClipUpdates) : TimelineClip :=
  { c with
    startOffset := u.startOffset.getD c.startOffset
    mediaStart := u.mediaStart.getD c.mediaStart
    duration := u.duration.getD c.duration
    trackIndex := u.trackIndex.getD c.trackIndex }

/-- `handleUpdateClip` (App embedded in `storageService.ts`, lines 133-140):
maps over the timeline, merging `updates` into the clip whose id matches. -/
def handleUpdateClip (timeline : List TimelineClip) (clipId : Nat)
    (u : ClipUpdates) : List TimelineClip :=
  timeline.map fun c => if c.id = clipId then applyUpdates c u else c

/-- The clip-level invariant stated in the spec: minimum duration, nonnegative
offsets, and for time-bounded (video/audio) assets the media window stays
inside the asset. -/
def ClipInvariant (assets : List MediaAsset) (c : TimelineClip) : Prop :=
  MIN_CLIP_DURATION ≤ c.duration ∧ 0 ≤ c.startOffset ∧ 0 ≤ c.mediaStart ∧
    ∀ a ∈ assets, a.id = c.assetId →
      (a.type = MediaType.video ∨ a.type = MediaType.audio) →
      c.mediaStart + c.duration ≤ a.duration

instance (assets : List MediaAsset) (c : TimelineClip) :
    Decidable (ClipInvariant assets c) := by
  unfold ClipInvariant; infer_instance

/-- The two halves a split produces (`handleSplit`): `part1` keeps the id
and left data with `duration = atTime - startOffset`; `part2` gets the
fresh id and the remainder. -/
def splitClipPair (c : TimelineClip) (atTime : ℚ) (fresh : Nat) :
    TimelineClip × TimelineClip :=
  let splitPointRelative := atTime - c.startOffset
  ({ c with duration := splitPointRelative },
   { c with
      id := fresh
      startOffset := c.startOffset + splitPointRelative
      mediaStart := c.mediaStart + splitPointRelative
      duration := c.duration - splitPointRelative })

/-- The `findIndex`/`splice` part of `handleSplit`: locate the first clip
with the selected id; if `atTime` is strictly inside it, replace it by the
two parts. `none` means no state change (id absent or `atTime` outside). -/
def splitTimeline (sid : Nat) (atTime : ℚ) (fresh : Nat) :
    List TimelineClip → Option (List TimelineClip)
  | [] => none
  | c :: rest =>
    if c.id = sid then
      if atTime > c.startOffset ∧ atTime < c.startOffset + c.duration then
        some ((splitClipPair c atTime fresh).1 ::
              (splitClipPair c atTime fresh).2 :: rest)
      else none
    else
      match splitTimeline sid atTime fresh rest with
      | none => none
      | some l => some (c :: l)

/-- `handleSplit` (App embedded in `storageService.ts`, lines 142-167) on the
state it touches: the timeline and the selection. On success the second part
is selected; otherwise nothing changes. -/
def handleSplit (timeline : List TimelineClip) (selectedClipId : Option Nat)
    (currentTime : ℚ) (fresh : Nat) : List TimelineClip × Option Nat :=
  match selectedClipId with
  | none => (timeline, none)
  | some sid =>
    match splitTimeline sid currentTime fresh timeline with
    | none => (timeline, some sid)
    | some l => (l, some fresh)

/-- Track assignment in `handleAddToTimeline`: default main (0), text to 2,
audio to 3 (the remaining `else if` branch in the source has an empty body). -/
def trackIndexFor (t : MediaType) : Nat :=
  if t = MediaType.text then 2
  else if t = MediaType.audio then 3
  else 0

/-- Insertion point in `handleAddToTimeline`: end of the last clip of the
target track in timeline order, or 0 when that track is empty. -/
def trackEnd (timeline : List TimelineClip) (trackIndex : Nat) : ℚ :=
  match (timeline.filter fun c => c.trackIndex = trackIndex).getLast? with
  | none => 0
  | some lastClip => lastClip.startOffset + lastClip.duration

/-- `handleAddToTimeline` (App embedded in `storageService.ts`, lines
88-123): find the asset, pick its track, append a fresh clip at the end of
that track with `mediaStart = 0` and `duration = asset.duration`. -/
def handleAddToTimeline (assets : List MediaAsset)
    (timeline : List TimelineClip) (assetId : Nat) (fresh : Nat) :
    List TimelineClip :=
  match assets.find? fun a => a.id = assetId with
  | none => timeline
  | some asset =>
    let trackIndex := trackIndexFor asset.type
    let startOffset := trackEnd timeline trackIndex
    timeline ++ [{ id := fresh, assetId := asset.id,
                   startOffset := startOffset, mediaStart := 0,
                   duration := asset.duration, trackIndex := trackIndex }]

/-! ## Snap resolution -/

/-- The snap radius in seconds: `SNAP_THRESHOLD_PX / PIXELS_PER_SECOND`. -/
def snapThresholdTime : ℚ := SNAP_THRESHOLD_PX / PIXELS_PER_SECOND

/-- The candidate list built by `getSnapTime`: `[0, currentTime]` then, per
clip other than the excluded one in timeline order, its start and its end. -/
def snapPoints (clips : List TimelineClip) (currentTime : ℚ)
    (excludeClipId : Nat) : List ℚ :=
  0 :: currentTime ::
    clips.foldr
      (fun c acc =>
        if c.id = excludeClipId then acc
        else c.startOffset :: (c.startOffset + c.duration) :: acc)
      []

/-- One iteration of the `for (const point of snapPoints)` loop: the
accumulator is `(bestSnap, minDiff, snapped)`, `minDiff = none` standing for
the initial `Infinity`. -/
def snapStep (proposedTime : ℚ) (acc : ℚ × Option ℚ × Bool) (point : ℚ) :
    ℚ × Option ℚ × Bool :=
  let diff := |proposedTime - point|
  if diff < snapThresholdTime ∧ (acc.2.1.all fun m => decide (diff < m)) = true
  then (point, some diff, true)
  else acc

/-- `getSnapTime` (timeline component embedded in `AssetLibrary.tsx`, lines
307-330): returns the resolved time and whether a snap occurred. -/
def getSnapTime (clips : List TimelineClip) (currentTime : ℚ)
    (excludeClipId : Nat) (proposedTime : ℚ) : ℚ × Bool :=
  let r := (snapPoints clips currentTime excludeClipId).foldl
    (snapStep proposedTime) (proposedTime, none, false)
  (r.1, r.2.2)

/-- The loop invariant of `getSnapTime`'s candidate scan, phrased over the
final accumulator `(bestSnap, minDiff, snapped)`: when no snap occurred the
proposal is returned and every candidate is at least the threshold away;
when one occurred, the best is a candidate within the threshold whose
distance is minimal, earlier candidates being strictly worse on ties. -/
def SnapAccOk (t : ℚ) (l : List ℚ) (acc : ℚ × Option ℚ × Bool) : Prop :=
  (acc.2.2 = false → acc.1 = t ∧ acc.2.1 = none ∧
    ∀ p ∈ l, snapThresholdTime ≤ |t - p|) ∧
  (acc.2.2 = true → acc.2.1 = some |t - acc.1| ∧
    |t - acc.1| < snapThresholdTime ∧
    ∃ i : ℕ, l[i]? = some acc.1 ∧
      ∀ (j : ℕ) (q : ℚ), l[j]? = some q → |t - q| < snapThresholdTime →
        |t - acc.1| < |t - q| ∨ (|t - acc.1| = |t - q| ∧ i ≤ j))

/-! ## Drag/trim transforms -/

/-- The left-handle branch of `handleGlobalMouseMove` (timeline component
embedded in `AssetLibrary.tsx`, lines 365-394). Returns the emitted
`(startOffset, mediaStart, duration)`. -/
def leftHandleTransform (clips : List TimelineClip) (currentTime : ℚ)
    (orig : TimelineClip) (deltaTime : ℚ) : ℚ × ℚ × ℚ :=
  let newStartOffset := orig.startOffset + deltaTime
  let snapResult := getSnapTime clips currentTime orig.id newStartOffset
  let finalStart := if snapResult.2 then snapResult.1 else newStartOffset
  let actualDelta := finalStart - orig.startOffset
  let newMediaStart := orig.mediaStart + actualDelta
  let newDuration := orig.duration - actualDelta
  let afterMediaClamp :=
    if newMediaStart < 0 then
      let correction := 0 - newMediaStart
      (finalStart + correction, 0, newDuration - correction)
    else (finalStart, newMediaStart, newDuration)
  if afterMediaClamp.2.2 < MIN_CLIP_DURATION then
    (orig.startOffset + orig.duration - MIN_CLIP_DURATION,
     orig.mediaStart + orig.duration - MIN_CLIP_DURATION,
     MIN_CLIP_DURATION)
  else afterMediaClamp

/-- The left-handle branch of the earlier `Timeline.tsx` (lines 76-106):
no snapping; both constraints are applied through `correction` arithmetic. -/
def leftHandleTransformV1 (orig : TimelineClip) (deltaTime : ℚ) :
    ℚ × ℚ × ℚ :=
  let newStartOffset := orig.startOffset + deltaTime
  let newMediaStart := orig.mediaStart + deltaTime
  let newDuration := orig.duration - deltaTime
  let afterMediaClamp :=
    if newMediaStart < 0 then
      let correction := 0 - newMediaStart
      (newStartOffset + correction, 0, newDuration - correction)
    else (newStartOffset, newMediaStart, newDuration)
  if afterMediaClamp.2.2 < MIN_CLIP_DURATION then
    let correction := MIN_CLIP_DURATION - afterMediaClamp.2.2
    (afterMediaClamp.1 - correction, afterMediaClamp.2.1 - correction,
     MIN_CLIP_DURATION)
  else afterMediaClamp

/-- The right-handle branch of `handleGlobalMouseMove` (timeline component
embedded in `AssetLibrary.tsx`, lines 395-412). Returns the emitted
duration. -/
def rightHandleDuration (clips : List TimelineClip) (currentTime : ℚ)
    (orig : TimelineClip) (deltaTime : ℚ) (asset : MediaAsset) : ℚ :=
  let proposedEnd := orig.startOffset + orig.duration + deltaTime
  let snapResult := getSnapTime clips currentTime orig.id proposedEnd
  let newDuration :=
    if snapResult.2 then snapResult.1 - orig.startOffset
    else orig.duration + deltaTime
  let newDuration :=
    if newDuration < MIN_CLIP_DURATION then MIN_CLIP_DURATION else newDuration
  if (asset.type = MediaType.video ∨ asset.type = MediaType.audio) ∧
      orig.mediaStart + newDuration > asset.duration then
    asset.duration - orig.mediaStart
  else newDuration

/-! ## Playback clock and sink sync -/

/-- `totalDuration` (App embedded in `storageService.ts`, lines 76-77):
`timeline.reduce((max, clip) => Math.max(max, clip.startOffset +
clip.duration), 0)`. -/
def totalDuration (timeline : List TimelineClip) : ℚ :=
  timeline.foldl (fun m c => max m (c.startOffset + c.duration)) 0

/-- One step of the main `requestAnimationFrame` loop (App embedded in
`storageService.ts`, lines 226-249), run while playing: advance by the
wall-clock `delta`; at or past the end (when the timeline is nonempty in
time) clamp to the end and stop. Returns `(currentTime, isPlaying)`. -/
def mainLoopTick (prev delta : ℚ) (timeline : List TimelineClip) :
    ℚ × Bool :=
  let next := prev + delta
  if next ≥ totalDuration timeline ∧ totalDuration timeline > 0 then
    (totalDuration timeline, false)
  else (next, true)

/-- The target local media time computed by `syncMediaElement`
(`storageService.ts` line 203). -/
def targetLocalTime (clip : TimelineClip) (currentTime : ℚ) : ℚ :=
  clip.mediaStart + (currentTime - clip.startOffset)

/-- The drift-correction core of `syncMediaElement` (`storageService.ts`
lines 203-208) for a sink whose loaded source already matches the active
clip's asset: force-seek exactly when the divergence exceeds 0.3 s. Returns
the sink's new position and whether a seek was issued. -/
def syncMediaElement (elementTime : ℚ) (clip : TimelineClip)
    (currentTime : ℚ) : ℚ × Bool :=
  let targetTime := targetLocalTime clip currentTime
  if |elementTime - targetTime| > 3/10 then (targetTime, true)
  else (elementTime, false)

/-! ## Concrete data used by witnesses -/

/-- A 10-second video asset. -/
def demoAssetV : MediaAsset := { id := 7, type := MediaType.video, duration := 10 }

/-- A full placement of `demoAssetV`: `{start=0, mediaStart=0, duration=10}`. -/
def demoClip : TimelineClip :=
  { id := 0, assetId := 7, startOffset := 0, mediaStart := 0, duration := 10,
    trackIndex := 0 }

/-- The spec's left-trim scenario clip `{start=5, mediaStart=5, duration=5}`. -/
def demoClipB : TimelineClip :=
  { id := 0, assetId := 7, startOffset := 5, mediaStart := 5, duration := 5,
    trackIndex := 0 }

/-! ## Split -/

lemma splitTimeline_append (sid : Nat) (atTime : ℚ) (fresh : Nat)
    (pre rest : List TimelineClip) (h : ∀ p ∈ pre, p.id ≠ sid) :
    splitTimeline sid atTime fresh (pre ++ rest) =
      (splitTimeline sid atTime fresh rest).map (pre ++ ·) := by
  induction pre with
  | nil =>
    cases hr : splitTimeline sid atTime fresh rest <;> simp [hr]
  | cons p ps ih =>
    have hp : p.id ≠ sid := h p (List.mem_cons_self p ps)
    have hps : ∀ q ∈ ps, q.id ≠ sid := fun q hq => h q (List.mem_cons_of_mem p hq)
    simp only [List.cons_append, splitTimeline, if_neg hp, List.append_eq]
    rw [ih hps]
    cases hr : splitTimeline sid atTime fresh rest <;> simp [hr]

/-- C2: splitting a clip strictly inside its span replaces it by the two
halves described by the spec, selects the second half, and leaves every
other clip untouched; the two halves partition the original duration and
`part2.mediaStart = original.mediaStart + part1.duration`. -/
theorem C2_split_inside (pre post : List TimelineClip) (c : TimelineClip)
    (atTime : ℚ) (fresh : Nat)
    (hpre : ∀ p ∈ pre, p.id ≠ c.id)
    (h1 : c.startOffset < atTime)
    (h2 : atTime < c.startOffset + c.duration) :
    handleSplit (pre ++ c :: post) (some c.id) atTime fresh =
      (pre ++ (splitClipPair c atTime fresh).1 ::
        (splitClipPair c atTime fresh).2 :: post, some fresh) ∧
    (splitClipPair c atTime fresh).1.id = c.id ∧
    (splitClipPair c atTime fresh).1.startOffset = c.startOffset ∧
    (splitClipPair c atTime fresh).1.mediaStart = c.mediaStart ∧
    (splitClipPair c atTime fresh).1.duration = atTime - c.startOffset ∧
    (splitClipPair c atTime fresh).2.id = fresh ∧
    (splitClipPair c atTime fresh).2.startOffset = atTime ∧
    (splitClipPair c atTime fresh).2.mediaStart =
      c.mediaStart + (atTime - c.startOffset) ∧
    (splitClipPair c atTime fresh).2.duration =
      c.duration - (atTime - c.startOffset) ∧
    (splitClipPair c atTime fresh).1.trackIndex = c.trackIndex ∧
    (splitClipPair c atTime fresh).2.trackIndex = c.trackIndex ∧
    (splitClipPair c atTime fresh).1.assetId = c.assetId ∧
    (splitClipPair c atTime fresh).2.assetId = c.assetId ∧
    (splitClipPair c atTime fresh).1.duration +
      (splitClipPair c atTime fresh).2.duration = c.duration ∧
    (splitClipPair c atTime fresh).2.mediaStart =
      c.mediaStart + (splitClipPair c atTime fresh).1.duration := by
  have hin : atTime > c.startOffset ∧ atTime < c.startOffset + c.duration :=
    ⟨h1, h2⟩
  constructor
  · simp [handleSplit, splitTimeline_append c.id atTime fresh pre _ hpre,
      splitTimeline, h1, h2]
  · simp only [splitClipPair]
    and_intros <;> ring_nf

/-- C2 witness: the spec's scenario, splitting `{start=0, mediaStart=0,
duration=10}` at `t = 4`. -/
theorem C2_split_inside_witness :
    ((∀ p ∈ ([] : List TimelineClip), p.id ≠ demoClip.id) ∧
      demoClip.startOffset < (4:ℚ) ∧
      (4:ℚ) < demoClip.startOffset + demoClip.duration) ∧
    handleSplit [demoClip] (some demoClip.id) 4 1 =
      ([(splitClipPair demoClip 4 1).1, (splitClipPair demoClip 4 1).2],
        some 1) ∧
    (splitClipPair demoClip 4 1).1.duration = 4 ∧
    (splitClipPair demoClip 4 1).2.startOffset = 4 ∧
    (splitClipPair demoClip 4 1).2.mediaStart = 4 ∧
    (splitClipPair demoClip 4 1).2.duration = 6 := by
  have h1 : demoClip.startOffset < (4:ℚ) := by norm_num [demoClip]
  have h2 : (4:ℚ) < demoClip.startOffset + demoClip.duration := by
    norm_num [demoClip]
  have h := C2_split_inside [] [] demoClip 4 1 (by simp) h1 h2
  refine ⟨⟨by simp, h1, h2⟩, by simpa using h.1, ?_, ?_, ?_, ?_⟩ <;>
    norm_num [splitClipPair, demoClip]

/-- C7: when `atTime` is at or outside the selected clip's boundaries,
split changes nothing: the timeline and the selection are returned
exactly as they were. -/
theorem C7_split_outside (pre post : List TimelineClip) (c : TimelineClip)
    (atTime : ℚ) (fresh : Nat)
    (hpre : ∀ p ∈ pre, p.id ≠ c.id)
    (h : atTime ≤ c.startOffset ∨ c.startOffset + c.duration ≤ atTime) :
    handleSplit (pre ++ c :: post) (some c.id) atTime fresh =
      (pre ++ c :: post, some c.id) := by
  have hcond : ¬ (atTime > c.startOffset ∧ atTime < c.startOffset + c.duration) := by
    rcases h with h | h
    · exact fun hc => absurd hc.1 (not_lt.mpr h)
    · exact fun hc => absurd hc.2 (not_lt.mpr h)
  simp [handleSplit, splitTimeline_append c.id atTime fresh pre _ hpre,
    splitTimeline, hcond]

/-- C7 witness: splitting `{start=0, duration=10}` exactly at its right
boundary `t = 10` is a no-op. -/
theorem C7_split_outside_witness :
    ((∀ p ∈ ([] : List TimelineClip), p.id ≠ demoClip.id) ∧
      ((10:ℚ) ≤ demoClip.startOffset ∨
        demoClip.startOffset + demoClip.duration ≤ (10:ℚ))) ∧
    handleSplit [demoClip] (some demoClip.id) 10 1 = ([demoClip], some demoClip.id) := by
  have h : (10:ℚ) ≤ demoClip.startOffset ∨
      demoClip.startOffset + demoClip.duration ≤ (10:ℚ) := by
    right; norm_num [demoClip]
  exact ⟨⟨by simp, h⟩, by
    simpa using C7_split_outside [] [] demoClip 10 1 (by simp) h⟩

/-! ## Update-clip invariants (C1) -/

/-- C1 counterexample: `handleUpdateClip` merges arbitrary partial fields
with no clamping, so an update carrying `duration = -1` leaves a clip in the
store that violates `duration ≥ MIN_CLIP_DURATION`; the store does not
re-apply the invariant clamps. -/
theorem C1_update_no_clamp_counterexample :
    handleUpdateClip [demoClip] 0 { duration := some (-1) } =
      [{ id := 0, assetId := 7, startOffset := 0, mediaStart := 0,
         duration := -1, trackIndex := 0 }] ∧
    ¬ ClipInvariant [demoAssetV]
      { id := 0, assetId := 7, startOffset := 0, mediaStart := 0,
        duration := -1, trackIndex := 0 } := by
  constructor
  · norm_num [handleUpdateClip, applyUpdates, demoClip]
  · rintro ⟨hd, -, -, -⟩
    norm_num [MIN_CLIP_DURATION] at hd

/-- C1 (amended): `handleUpdateClip` is a verbatim merge with no clamping,
so the invariants survive an update exactly when the merged fields satisfy
them themselves: if every clip satisfied the invariant before and the merged
image of the targeted clip satisfies it, every clip satisfies it after. -/
theorem C1_update_merge_preserves_invariants (assets : List MediaAsset)
    (timeline : List TimelineClip) (clipId : Nat) (u : ClipUpdates)
    (hall : ∀ c ∈ timeline, ClipInvariant assets c)
    (hupd : ∀ c ∈ timeline, c.id = clipId → ClipInvariant assets (applyUpdates c u)) :
    ∀ c ∈ handleUpdateClip timeline clipId u, ClipInvariant assets c := by
  intro c hc
  simp only [handleUpdateClip, List.mem_map] at hc
  obtain ⟨d, hd, rfl⟩ := hc
  by_cases h : d.id = clipId
  · simpa [h] using hupd d hd h
  · simpa [h] using hall d hd

/-- C1 witness: a legal merge (`duration := 6`) on a store satisfying the
invariants keeps them. -/
theorem C1_update_merge_preserves_invariants_witness :
    (∀ c ∈ [demoClip], ClipInvariant [demoAssetV] c) ∧
    (∀ c ∈ [demoClip], c.id = 0 →
      ClipInvariant [demoAssetV] (applyUpdates c { duration := some 6 })) ∧
    ∀ c ∈ handleUpdateClip [demoClip] 0 { duration := some 6 },
      ClipInvariant [demoAssetV] c := by
  have hall : ∀ c ∈ [demoClip], ClipInvariant [demoAssetV] c := by
    intro c hc
    simp only [List.mem_singleton] at hc
    subst hc
    refine ⟨by norm_num [demoClip, MIN_CLIP_DURATION], by norm_num [demoClip],
      by norm_num [demoClip], ?_⟩
    intro a ha _ _
    simp only [List.mem_singleton] at ha
    subst ha
    norm_num [demoClip, demoAssetV]
  have hupd : ∀ c ∈ [demoClip], c.id = 0 →
      ClipInvariant [demoAssetV] (applyUpdates c { duration := some 6 }) := by
    intro c hc _
    simp only [List.mem_singleton] at hc
    subst hc
    refine ⟨by norm_num [demoClip, applyUpdates, MIN_CLIP_DURATION],
      by norm_num [demoClip, applyUpdates], by norm_num [demoClip, applyUpdates], ?_⟩
    intro a ha _ _
    simp only [List.mem_singleton] at ha
    subst ha
    norm_num [demoClip, demoAssetV, applyUpdates]
  exact ⟨hall, hupd,
    C1_update_merge_preserves_invariants [demoAssetV] [demoClip] 0 _ hall hupd⟩

/-! ## Add to timeline (C4) -/

/-- C4: when the asset is found, `handleAddToTimeline` appends exactly one
new clip — `mediaStart = 0`, `duration = asset.duration`, track given by the
fixed kind mapping (video/image to 0, text to 2, audio to 3), start at the
end of the last clip of that track or 0 when the track is empty — and leaves
every existing clip unchanged. -/
theorem C4_add_to_timeline (assets : List MediaAsset)
    (timeline : List TimelineClip) (assetId fresh : Nat) (a : MediaAsset)
    (hfind : (assets.find? fun x => x.id = assetId) = some a) :
    handleAddToTimeline assets timeline assetId fresh =
      timeline ++ [{ id := fresh, assetId := a.id,
                     startOffset := trackEnd timeline (trackIndexFor a.type),
                     mediaStart := 0, duration := a.duration,
                     trackIndex := trackIndexFor a.type }] ∧
    trackIndexFor MediaType.video = 0 ∧
    trackIndexFor MediaType.image = 0 ∧
    trackIndexFor MediaType.text = 2 ∧
    trackIndexFor MediaType.audio = 3 ∧
    ((timeline.filter fun c => c.trackIndex = trackIndexFor a.type) = [] →
      trackEnd timeline (trackIndexFor a.type) = 0) ∧
    ∀ lastClip,
      (timeline.filter fun c => c.trackIndex = trackIndexFor a.type).getLast? =
        some lastClip →
      trackEnd timeline (trackIndexFor a.type) =
        lastClip.startOffset + lastClip.duration := by
  refine ⟨by simp [handleAddToTimeline, hfind], by decide, by decide, by decide,
    by decide, ?_, ?_⟩
  · intro hempty
    simp [trackEnd, hempty]
  · intro lastClip hlast
    simp [trackEnd, hlast]

/-- C4 witness: adding the 10-second video asset to a timeline already
holding `demoClip` on track 0 appends one clip at `startOffset = 10`. -/
theorem C4_add_to_timeline_witness :
    (([demoAssetV].find? fun x => x.id = 7) = some demoAssetV) ∧
    handleAddToTimeline [demoAssetV] [demoClip] 7 3 =
      [demoClip,
       { id := 3, assetId := 7, startOffset := 10, mediaStart := 0,
         duration := 10, trackIndex := 0 }] := by
  have hfind : (([demoAssetV].find? fun x => x.id = 7) = some demoAssetV) := by
    simp [demoAssetV]
  refine ⟨hfind, ?_⟩
  have h := (C4_add_to_timeline [demoAssetV] [demoClip] 7 3 demoAssetV hfind).1
  rw [h]
  simp [demoAssetV, demoClip, trackEnd, trackIndexFor]

/-! ## Playback clock (C8) -/

lemma le_foldl_max (l : List ℚ) (a : ℚ) : a ≤ l.foldl max a := by
  induction l generalizing a with
  | nil => exact le_refl a
  | cons x xs ih => exact le_trans (le_max_left a x) (ih (max a x))

lemma mem_le_foldl_max (l : List ℚ) (a : ℚ) : ∀ x ∈ l, x ≤ l.foldl max a := by
  induction l generalizing a with
  | nil => intro x hx; cases hx
  | cons y ys ih =>
    intro x hx
    rcases List.mem_cons.mp hx with rfl | hx
    · exact le_trans (le_max_right a x) (le_foldl_max ys (max a x))
    · exact ih (max a y) x hx

lemma foldl_max_eq_init_or_mem (l : List ℚ) (a : ℚ) :
    l.foldl max a = a ∨ l.foldl max a ∈ l := by
  induction l generalizing a with
  | nil => exact Or.inl rfl
  | cons x xs ih =>
    rcases ih (max a x) with h | h
    · rcases max_choice a x with hm | hm
      · exact Or.inl (by simp only [List.foldl_cons]; rw [h, hm])
      · exact Or.inr (by simp only [List.foldl_cons]; rw [h, hm]; exact
          List.mem_cons_self x xs)
    · exact Or.inr (List.mem_cons_of_mem x h)

lemma totalDuration_eq_foldl_map (timeline : List TimelineClip) :
    totalDuration timeline =
      (timeline.map fun c => c.startOffset + c.duration).foldl max 0 := by
  rw [totalDuration, List.foldl_map]

/-- C8: while playing, a frame tick adds the wall-clock delta to the current
time, except that on reaching or passing the end of a timeline of positive
total duration the time is clamped to exactly `totalDuration` and playback
stops; and `totalDuration` is 0 for an empty timeline and otherwise the
maximum clip end `startOffset + duration` (for clips with nonnegative ends,
the only ones the transforms produce). -/
theorem C8_main_loop_tick (prev delta : ℚ) (timeline : List TimelineClip) :
    (prev + delta ≥ totalDuration timeline ∧ 0 < totalDuration timeline →
      mainLoopTick prev delta timeline = (totalDuration timeline, false)) ∧
    (¬ (prev + delta ≥ totalDuration timeline ∧ 0 < totalDuration timeline) →
      mainLoopTick prev delta timeline = (prev + delta, true)) ∧
    totalDuration [] = 0 ∧
    (∀ c ∈ timeline, c.startOffset + c.duration ≤ totalDuration timeline) ∧
    (timeline ≠ [] → (∀ c ∈ timeline, 0 ≤ c.startOffset + c.duration) →
      ∃ c ∈ timeline, totalDuration timeline = c.startOffset + c.duration) := by
  refine ⟨?_, ?_, rfl, ?_, ?_⟩
  · intro h
    simp only [mainLoopTick]
    rw [if_pos ⟨h.1, h.2⟩]
  · intro h
    simp only [mainLoopTick]
    rw [if_neg (by exact_mod_cast h)]
  · intro c hc
    rw [totalDuration_eq_foldl_map]
    exact mem_le_foldl_max _ 0 _ (List.mem_map_of_mem _ hc)
  · intro hne hnn
    rcases foldl_max_eq_init_or_mem
        (timeline.map fun c => c.startOffset + c.duration) 0 with h | h
    · obtain ⟨c0, hc0⟩ := List.exists_mem_of_ne_nil timeline hne
      refine ⟨c0, hc0, le_antisymm ?_ ?_⟩
      · rw [totalDuration_eq_foldl_map, h]
        exact hnn c0 hc0
      · rw [totalDuration_eq_foldl_map]
        exact mem_le_foldl_max _ 0 _ (List.mem_map_of_mem _ hc0)
    · rw [totalDuration_eq_foldl_map]
      obtain ⟨c, hc, hceq⟩ := List.mem_map.mp h
      exact ⟨c, hc, hceq.symm⟩

/-- C8 witness: with the single 10-second clip, a tick from `t = 9` with
`delta = 2` clamps to 10 and stops. -/
theorem C8_main_loop_tick_witness :
    ((9:ℚ) + 2 ≥ totalDuration [demoClip] ∧ 0 < totalDuration [demoClip]) ∧
    mainLoopTick 9 2 [demoClip] = (totalDuration [demoClip], false) ∧
    totalDuration [demoClip] = 10 := by
  have h : (9:ℚ) + 2 ≥ totalDuration [demoClip] ∧ 0 < totalDuration [demoClip] := by
    constructor <;> norm_num [totalDuration, demoClip, List.foldl]
  exact ⟨h, (C8_main_loop_tick 9 2 [demoClip]).1 h,
    by norm_num [totalDuration, demoClip, List.foldl]⟩

/-! ## Sink drift correction (C9) -/

/-- C9: for a sink whose loaded source matches the active clip's asset, the
target is `clip.mediaStart + (currentTime - clip.startOffset)` and a forced
seek happens exactly when the sink's position diverges from it by more than
0.3 s; otherwise the native position is untouched. -/
theorem C9_drift_correction (elementTime : ℚ) (clip : TimelineClip)
    (currentTime : ℚ) :
    ((syncMediaElement elementTime clip currentTime).2 = true ↔
      |elementTime - targetLocalTime clip currentTime| > 3/10) ∧
    ((syncMediaElement elementTime clip currentTime).2 = true →
      (syncMediaElement elementTime clip currentTime).1 =
        targetLocalTime clip currentTime) ∧
    ((syncMediaElement elementTime clip currentTime).2 = false →
      (syncMediaElement elementTime clip currentTime).1 = elementTime) ∧
    targetLocalTime clip currentTime =
      clip.mediaStart + (currentTime - clip.startOffset) := by
  refine ⟨?_, ?_, ?_, rfl⟩ <;> simp only [syncMediaElement] <;> split_ifs with h <;>
    simp [h]

/-- C9 witness: the spec scenario — playhead 12.35, clip
`{start=10, mediaStart=0, duration=5}`, sink at 12.0: divergence 9.65 > 0.3,
so a forced seek to the target 2.35 is issued. -/
theorem C9_drift_correction_witness :
    (syncMediaElement 12
        { id := 0, assetId := 7, startOffset := 10, mediaStart := 0,
          duration := 5, trackIndex := 0 } (1235/100)).2 = true ∧
    (syncMediaElement 12
        { id := 0, assetId := 7, startOffset := 10, mediaStart := 0,
          duration := 5, trackIndex := 0 } (1235/100)).1 = 47/20 := by
  have h2 := (C9_drift_correction 12
    { id := 0, assetId := 7, startOffset := 10, mediaStart := 0,
      duration := 5, trackIndex := 0 } (1235/100))
  have htv : targetLocalTime
      { id := 0, assetId := 7, startOffset := 10, mediaStart := 0,
        duration := 5, trackIndex := 0 } (1235/100) = 47/20 := by
    norm_num [targetLocalTime]
  have hgt : |(12:ℚ) - targetLocalTime
      { id := 0, assetId := 7, startOffset := 10, mediaStart := 0,
        duration := 5, trackIndex := 0 } (1235/100)| > 3/10 := by
    rw [htv, abs_of_nonneg (by norm_num : (0:ℚ) ≤ 12 - 47/20)]
    norm_num
  have hs := h2.1.mpr hgt
  exact ⟨hs, by rw [h2.2.1 hs, htv]⟩

/-! ## Left-handle algebra (C10) -/

/-- C10: in every branch of the left-handle transform (snapped or not,
mediaStart clamp, minimum-duration repin, or none), in both versions of the
timeline component, the emitted update keeps the clip's right edge
`startOffset + duration` and its alignment `startOffset - mediaStart`
exactly as they were. -/
theorem C10_left_handle_preserves_edges (clips : List TimelineClip)
    (currentTime : ℚ) (orig : TimelineClip) (deltaTime : ℚ) :
    ((leftHandleTransform clips currentTime orig deltaTime).1 +
        (leftHandleTransform clips currentTime orig deltaTime).2.2 =
      orig.startOffset + orig.duration ∧
     (leftHandleTransform clips currentTime orig deltaTime).1 -
        (leftHandleTransform clips currentTime orig deltaTime).2.1 =
      orig.startOffset - orig.mediaStart) ∧
    ((leftHandleTransformV1 orig deltaTime).1 +
        (leftHandleTransformV1 orig deltaTime).2.2 =
      orig.startOffset + orig.duration ∧
     (leftHandleTransformV1 orig deltaTime).1 -
        (leftHandleTransformV1 orig deltaTime).2.1 =
      orig.startOffset - orig.mediaStart) := by
  simp only [leftHandleTransform, leftHandleTransformV1]
  split_ifs <;> and_intros <;> ring_nf

/-! ## Left-handle clamps (C6) -/

/-- C6: after the snapped start is computed, the left-handle transform
applies two clamps in order — a negative `mediaStart` is pinned to 0 with
the deficit added to `startOffset` and subtracted from `duration`, and a
duration below 0.5 is repinned to 0.5 with `startOffset`/`mediaStart`
recomputed from the original fixed right edges minus 0.5 — and on the
spec's scenario (`deltaTime = -5` on `{start=5, mediaStart=5, duration=5}`)
both versions emit `{startOffset=0, mediaStart=0, duration=10}`. -/
theorem C6_left_handle_clamps :
    (∀ (clips : List TimelineClip) (currentTime : ℚ) (orig : TimelineClip)
        (deltaTime : ℚ),
      let snapResult := getSnapTime clips currentTime orig.id
        (orig.startOffset + deltaTime)
      let finalStart := if snapResult.2 then snapResult.1
        else orig.startOffset + deltaTime
      let m0 := orig.mediaStart + (finalStart - orig.startOffset)
      let d0 := orig.duration - (finalStart - orig.startOffset)
      (0 ≤ m0 → MIN_CLIP_DURATION ≤ d0 →
        leftHandleTransform clips currentTime orig deltaTime =
          (finalStart, m0, d0)) ∧
      (m0 < 0 → MIN_CLIP_DURATION ≤ d0 + m0 →
        leftHandleTransform clips currentTime orig deltaTime =
          (finalStart - m0, 0, d0 + m0)) ∧
      ((0 ≤ m0 ∧ d0 < MIN_CLIP_DURATION) ∨
          (m0 < 0 ∧ d0 + m0 < MIN_CLIP_DURATION) →
        leftHandleTransform clips currentTime orig deltaTime =
          (orig.startOffset + orig.duration - MIN_CLIP_DURATION,
           orig.mediaStart + orig.duration - MIN_CLIP_DURATION,
           MIN_CLIP_DURATION))) ∧
    leftHandleTransform [demoClipB] 20 demoClipB (-5) = (0, 0, 10) ∧
    leftHandleTransformV1 demoClipB (-5) = (0, 0, 10) := by
  refine ⟨?_, ?_, ?_⟩
  · intro clips currentTime orig deltaTime
    dsimp only
    refine ⟨?_, ?_, ?_⟩
    · intro h0 h1
      simp only [leftHandleTransform]
      rw [if_neg (not_lt.mpr h0)]
      rw [if_neg (not_lt.mpr h1)]
    · intro h0 h1
      simp only [leftHandleTransform]
      rw [if_pos h0]
      dsimp only
      rw [if_neg (by rw [not_lt]; linarith)]
      simp only [Prod.mk.injEq]
      and_intros <;> ring_nf
    · rintro (⟨h0, h1⟩ | ⟨h0, h1⟩)
      · simp only [leftHandleTransform]
        rw [if_neg (not_lt.mpr h0)]
        rw [if_pos h1]
      · simp only [leftHandleTransform]
        rw [if_pos h0]
        dsimp only
        rw [if_pos (by linarith)]
  · norm_num [leftHandleTransform, getSnapTime, snapPoints, snapStep,
      snapThresholdTime, SNAP_THRESHOLD_PX, PIXELS_PER_SECOND,
      MIN_CLIP_DURATION, demoClipB]
  · norm_num [leftHandleTransformV1, MIN_CLIP_DURATION, demoClipB]

/-- C6 witness: an unsnapped, unclamped left-handle drag (`deltaTime = -2`
on `{start=5, mediaStart=5, duration=5}` with no snap candidates in range)
moves all three fields by the delta, plus the two scenario instances. -/
theorem C6_left_handle_clamps_witness :
    leftHandleTransform [] 100 demoClipB (-2) = (3, 3, 7) ∧
    leftHandleTransform [demoClipB] 20 demoClipB (-5) = (0, 0, 10) ∧
    leftHandleTransformV1 demoClipB (-5) = (0, 0, 10) := by
  have h := C6_left_handle_clamps
  refine ⟨?_, h.2.1, h.2.2⟩
  have h2 := (h.1 [] 100 demoClipB (-2)).1
  simp only at h2
  have hsnap : getSnapTime [] 100 demoClipB.id (demoClipB.startOffset + -2) =
      (3, false) := by
    norm_num [getSnapTime, snapPoints, snapStep, snapThresholdTime,
      SNAP_THRESHOLD_PX, PIXELS_PER_SECOND, demoClipB]
  rw [hsnap] at h2
  norm_num [demoClipB] at h2
  exact h2 (by norm_num [MIN_CLIP_DURATION])

/-! ## Right-handle clamps (C3) -/

/-- C3: for a time-bounded (video/audio) asset, the right-handle transform
first clamps the proposed duration below by `MIN_CLIP_DURATION` and then
clamps it above so that `mediaStart + duration ≤ asset.duration`; hence the
emitted duration always satisfies the media-window bound, and it is at
least the minimum unless the upper clamp produced
`asset.duration - mediaStart`. -/
theorem C3_right_handle_clamps (clips : List TimelineClip) (currentTime : ℚ)
    (orig : TimelineClip) (deltaTime : ℚ) (asset : MediaAsset)
    (hb : asset.type = MediaType.video ∨ asset.type = MediaType.audio) :
    orig.mediaStart + rightHandleDuration clips currentTime orig deltaTime asset ≤
      asset.duration ∧
    (MIN_CLIP_DURATION ≤ rightHandleDuration clips currentTime orig deltaTime asset ∨
      (asset.duration - orig.mediaStart < MIN_CLIP_DURATION ∧
        rightHandleDuration clips currentTime orig deltaTime asset =
          asset.duration - orig.mediaStart)) ∧
    rightHandleDuration clips currentTime orig deltaTime asset =
      (let base := if (getSnapTime clips currentTime orig.id
            (orig.startOffset + orig.duration + deltaTime)).2
          then (getSnapTime clips currentTime orig.id
            (orig.startOffset + orig.duration + deltaTime)).1 - orig.startOffset
          else orig.duration + deltaTime
       let lower := max MIN_CLIP_DURATION base
       if asset.duration < orig.mediaStart + lower then
         asset.duration - orig.mediaStart
       else lower) := by
  have hmax : ∀ a : ℚ,
      (if a < MIN_CLIP_DURATION then MIN_CLIP_DURATION else a) =
        max MIN_CLIP_DURATION a := by
    intro a
    split_ifs with h
    · exact (max_eq_left h.le).symm
    · exact (max_eq_right (not_lt.mp h)).symm
  simp only [rightHandleDuration, hmax, eq_true hb, true_and, gt_iff_lt]
  generalize (if (getSnapTime clips currentTime orig.id
        (orig.startOffset + orig.duration + deltaTime)).2 = true
      then (getSnapTime clips currentTime orig.id
        (orig.startOffset + orig.duration + deltaTime)).1 - orig.startOffset
      else orig.duration + deltaTime) = base
  split_ifs with h <;> refine ⟨by linarith, ?_, trivial⟩
  · exact (lt_or_le (asset.duration - orig.mediaStart) MIN_CLIP_DURATION).elim
      (fun hlt => Or.inr ⟨hlt, rfl⟩) (fun hge => Or.inl hge)
  · exact Or.inl (le_max_left _ _)

/-- C3 witness: the spec scenario — clip `{mediaStart=0, duration=10}` on
a 10-second video asset, right-handle drag with `deltaTime = +20`: the
duration stays clamped at 10. -/
theorem C3_right_handle_clamps_witness :
    (demoAssetV.type = MediaType.video ∨ demoAssetV.type = MediaType.audio) ∧
    demoClip.mediaStart + rightHandleDuration [demoClip] 0 demoClip 20 demoAssetV ≤
      demoAssetV.duration ∧
    rightHandleDuration [demoClip] 0 demoClip 20 demoAssetV = 10 := by
  have hb : demoAssetV.type = MediaType.video ∨ demoAssetV.type = MediaType.audio :=
    Or.inl rfl
  have h := C3_right_handle_clamps [demoClip] 0 demoClip 20 demoAssetV hb
  refine ⟨hb, h.1, ?_⟩
  norm_num [rightHandleDuration, getSnapTime, snapPoints, snapStep,
    snapThresholdTime, SNAP_THRESHOLD_PX, PIXELS_PER_SECOND,
    MIN_CLIP_DURATION, demoClip, demoAssetV]

/-! ## Snap resolution (C5) -/

lemma mem_snapPoints (clips : List TimelineClip) (currentTime : ℚ)
    (excludeClipId : Nat) (x : ℚ) :
    x ∈ snapPoints clips currentTime excludeClipId ↔
      x = 0 ∨ x = currentTime ∨ ∃ c ∈ clips, c.id ≠ excludeClipId ∧
        (x = c.startOffset ∨ x = c.startOffset + c.duration) := by
  have key : ∀ cs : List TimelineClip,
      x ∈ cs.foldr
        (fun c acc =>
          if c.id = excludeClipId then acc
          else c.startOffset :: (c.startOffset + c.duration) :: acc) [] ↔
      ∃ c ∈ cs, c.id ≠ excludeClipId ∧
        (x = c.startOffset ∨ x = c.startOffset + c.duration) := by
    intro cs
    induction cs with
    | nil => simp
    | cons c cs ih =>
      by_cases hc : c.id = excludeClipId
      · simp only [List.foldr_cons, if_pos hc, ih, List.mem_cons]
        constructor
        · rintro ⟨d, hd, hdne, hx⟩
          exact ⟨d, Or.inr hd, hdne, hx⟩
        · rintro ⟨d, rfl | hd, hdne, hx⟩
          · exact absurd hc hdne
          · exact ⟨d, hd, hdne, hx⟩
      · simp only [List.foldr_cons, if_neg hc, List.mem_cons, ih]
        constructor
        · rintro (rfl | rfl | ⟨d, hd, hdne, hx⟩)
          · exact ⟨c, Or.inl rfl, hc, Or.inl rfl⟩
          · exact ⟨c, Or.inl rfl, hc, Or.inr rfl⟩
          · exact ⟨d, Or.inr hd, hdne, hx⟩
        · rintro ⟨d, rfl | hd, hdne, hx⟩
          · rcases hx with rfl | rfl
            · exact Or.inl rfl
            · exact Or.inr (Or.inl rfl)
          · exact Or.inr (Or.inr ⟨d, hd, hdne, hx⟩)
  simp only [snapPoints, List.mem_cons, key]


lemma snapFold_spec (t : ℚ) (l : List ℚ) :
    SnapAccOk t l (l.foldl (snapStep t) (t, (none : Option ℚ), false)) := by
  induction l using List.reverseRecOn with
  | nil =>
    constructor
    · intro _
      exact ⟨rfl, rfl, fun p hp => absurd hp (List.not_mem_nil p)⟩
    · intro hs
      simp at hs
  | append_singleton l p ih =>
    rw [List.foldl_append, List.foldl_cons, List.foldl_nil]
    rcases hacc : l.foldl (snapStep t) (t, (none : Option ℚ), false)
      with ⟨b0, m0, s0⟩
    rw [hacc] at ih
    simp only [SnapAccOk] at ih
    simp only [snapStep]
    by_cases hcond : |t - p| < snapThresholdTime ∧
        (m0.all fun x => decide (|t - p| < x)) = true
    · rw [if_pos hcond]
      simp only [SnapAccOk]
      constructor
      · intro hs
        simp at hs
      · intro _
        refine ⟨by simp, hcond.1, l.length, List.getElem?_concat_length l p, ?_⟩
        intro j q hj hq
        by_cases hjl : j < l.length
        · rw [List.getElem?_append_left hjl] at hj
          obtain ⟨hjlt, hget⟩ := List.getElem?_eq_some.mp hj
          have hqmem : q ∈ l := hget ▸ List.getElem_mem hjlt
          cases s0 with
          | false =>
            obtain ⟨-, -, hall⟩ := ih.1 rfl
            exact absurd hq (not_lt.mpr (hall q hqmem))
          | true =>
            obtain ⟨hm0, -, i2, -, hmin⟩ := ih.2 rfl
            have hltb0 : |t - p| < |t - b0| := by
              have hd := hcond.2
              rw [hm0, Option.all_some] at hd
              exact of_decide_eq_true hd
            have hb0q : |t - b0| ≤ |t - q| := by
              rcases hmin j q hj hq with hlt | ⟨heq, -⟩
              · exact hlt.le
              · exact heq.le
            exact Or.inl (lt_of_lt_of_le hltb0 hb0q)
        · rw [List.getElem?_append_right (le_of_not_lt hjl)] at hj
          have hqp : q = p ∧ j = l.length := by
            cases hk : j - l.length with
            | zero =>
              rw [hk] at hj
              simp only [List.getElem?_cons_zero, Option.some.injEq] at hj
              exact ⟨hj.symm, by omega⟩
            | succ k =>
              rw [hk] at hj
              simp at hj
          obtain ⟨rfl, rfl⟩ := hqp
          exact Or.inr ⟨rfl, le_refl _⟩
    · rw [if_neg hcond]
      simp only [SnapAccOk]
      constructor
      · intro hs
        obtain ⟨hb0, hm0, hall⟩ := ih.1 hs
        refine ⟨hb0, hm0, fun q hq => ?_⟩
        rcases List.mem_append.mp hq with hql | hqp
        · exact hall q hql
        · have hp : ¬ |t - p| < snapThresholdTime := by
            intro hlt
            refine hcond ⟨hlt, ?_⟩
            rw [hm0, Option.all_none]
          rw [List.mem_singleton] at hqp
          subst hqp
          exact le_of_not_lt hp
      · intro hs
        obtain ⟨hm0, hthr, i, hi, hmin⟩ := ih.2 hs
        have hilt : i < l.length := (List.getElem?_eq_some.mp hi).1
        refine ⟨hm0, hthr, i, ?_, ?_⟩
        · rw [List.getElem?_append_left hilt]
          exact hi
        · intro j q hj hq
          by_cases hjl : j < l.length
          · rw [List.getElem?_append_left hjl] at hj
            exact hmin j q hj hq
          · rw [List.getElem?_append_right (le_of_not_lt hjl)] at hj
            have hqp : q = p ∧ j = l.length := by
              cases hk : j - l.length with
              | zero =>
                rw [hk] at hj
                simp only [List.getElem?_cons_zero, Option.some.injEq] at hj
                exact ⟨hj.symm, by omega⟩
              | succ k =>
                rw [hk] at hj
                simp at hj
            obtain ⟨rfl, rfl⟩ := hqp
            have hble : |t - b0| ≤ |t - q| := by
              have hna : ¬ ((m0.all fun x => decide (|t - q| < x)) = true) :=
                fun hall => hcond ⟨hq, hall⟩
              rw [hm0, Option.all_some] at hna
              exact le_of_not_lt fun hlt => hna (decide_eq_true hlt)
            rcases lt_or_eq_of_le hble with hlt | heq
            · exact Or.inl hlt
            · exact Or.inr ⟨heq, le_of_lt hilt⟩

/-- C5: `getSnapTime` considers exactly the candidates 0, the playhead, and
the start/end of every non-excluded clip; when no candidate is strictly
within the pixel-derived threshold (15px / PIXELS_PER_SECOND) it returns the
proposal unchanged with `snapped = false`; otherwise it returns, with
`snapped = true`, a candidate within the threshold whose absolute difference
is minimal, every earlier-enumerated in-threshold candidate being strictly
worse (so ties go to the first-enumerated candidate). -/
theorem C5_snap_resolution (clips : List TimelineClip) (currentTime : ℚ)
    (excludeClipId : Nat) (t : ℚ) :
    (∀ x : ℚ, x ∈ snapPoints clips currentTime excludeClipId ↔
      x = 0 ∨ x = currentTime ∨ ∃ c ∈ clips, c.id ≠ excludeClipId ∧
        (x = c.startOffset ∨ x = c.startOffset + c.duration)) ∧
    snapThresholdTime = 15 / PIXELS_PER_SECOND ∧
    ((getSnapTime clips currentTime excludeClipId t).2 = false →
      (getSnapTime clips currentTime excludeClipId t).1 = t ∧
      ∀ p ∈ snapPoints clips currentTime excludeClipId,
        snapThresholdTime ≤ |t - p|) ∧
    ((getSnapTime clips currentTime excludeClipId t).2 = true →
      |t - (getSnapTime clips currentTime excludeClipId t).1| <
        snapThresholdTime ∧
      ∃ i : ℕ, (snapPoints clips currentTime excludeClipId)[i]? =
          some (getSnapTime clips currentTime excludeClipId t).1 ∧
        ∀ (j : ℕ) (q : ℚ),
          (snapPoints clips currentTime excludeClipId)[j]? = some q →
          |t - q| < snapThresholdTime →
          |t - (getSnapTime clips currentTime excludeClipId t).1| < |t - q| ∨
          (|t - (getSnapTime clips currentTime excludeClipId t).1| = |t - q| ∧
            i ≤ j)) ∧
    ((getSnapTime clips currentTime excludeClipId t).2 = true ↔
      ∃ p ∈ snapPoints clips currentTime excludeClipId,
        |t - p| < snapThresholdTime) := by
  have hspec := snapFold_spec t (snapPoints clips currentTime excludeClipId)
  simp only [SnapAccOk] at hspec
  have hg1 : (getSnapTime clips currentTime excludeClipId t).1 =
      ((snapPoints clips currentTime excludeClipId).foldl (snapStep t)
        (t, (none : Option ℚ), false)).1 := rfl
  have hg2 : (getSnapTime clips currentTime excludeClipId t).2 =
      ((snapPoints clips currentTime excludeClipId).foldl (snapStep t)
        (t, (none : Option ℚ), false)).2.2 := rfl
  refine ⟨mem_snapPoints clips currentTime excludeClipId, rfl, ?_, ?_, ?_⟩
  · intro hfalse
    rw [hg2] at hfalse
    obtain ⟨hb, -, hall⟩ := hspec.1 hfalse
    exact ⟨by rw [hg1, hb], hall⟩
  · intro htrue
    rw [hg2] at htrue
    obtain ⟨-, hthr, i, hi, hmin⟩ := hspec.2 htrue
    refine ⟨by rw [hg1]; exact hthr, i, by rw [hg1]; exact hi, ?_⟩
    intro j q hj hq
    rw [hg1]
    exact hmin j q hj hq
  · constructor
    · intro htrue
      rw [hg2] at htrue
      obtain ⟨-, hthr, i, hi, -⟩ := hspec.2 htrue
      obtain ⟨hlt, hget⟩ := List.getElem?_eq_some.mp hi
      exact ⟨_, hget ▸ List.getElem_mem hlt, hthr⟩
    · rintro ⟨p, hp, hplt⟩
      cases hb : (getSnapTime clips currentTime excludeClipId t).2 with
      | true => rfl
      | false =>
        rw [hg2] at hb
        obtain ⟨-, -, hall⟩ := hspec.1 hb
        exact absurd hplt (not_lt.mpr (hall p hp))

/-- C5 witness: with the clip `{start=0, duration=10}` present (and not
excluded), a proposal of 9.75 snaps to the clip end 10: snapped is
reported, the result is 10, and it is within the threshold of 0.375 s. -/
theorem C5_snap_resolution_witness :
    (getSnapTime [demoClip] 20 5 (39/4)).2 = true ∧
    (getSnapTime [demoClip] 20 5 (39/4)).1 = 10 ∧
    |39/4 - (getSnapTime [demoClip] 20 5 (39/4)).1| < snapThresholdTime := by
  have hval : getSnapTime [demoClip] 20 5 (39/4) = (10, true) := by
    have a1 : |(39:ℚ)/4| = 39/4 := abs_of_nonneg (by norm_num)
    have a2 : |(41:ℚ)/4| = 41/4 := abs_of_nonneg (by norm_num)
    have a3 : |(1:ℚ)/4| = 1/4 := abs_of_nonneg (by norm_num)
    norm_num [getSnapTime, snapPoints, snapStep, snapThresholdTime,
      SNAP_THRESHOLD_PX, PIXELS_PER_SECOND, demoClip, a1, a2, a3]
  have h := (C5_snap_resolution [demoClip] 20 5 (39/4)).2.2.2.1 (by rw [hval])
  exact ⟨by rw [hval], by rw [hval], h.1⟩
